import Mathlib

/-!
Verification development for the string-analyzer service.

The repository contains three variants of the analysis/filter code:
* `src/app/services.py` (`StringAnalyzerService`) — namespace `Services`,
* `src/app/main.py` — namespace `AppMain`,
* `src/main.py` — namespace `RootMain`.

Strings are modelled as `List Char` (Unicode code points, matching Python
`str`).  Python `str.strip()` / `str.split()` whitespace is modelled by
`isPySpace`; the regular expressions used by the translators are modelled by
dedicated pattern matchers with Python `re.search` leftmost-match semantics.
The SHA-256 digest is kept abstract: every function that computes it takes the
digest function as an explicit parameter, since no property below depends on
the digest's internals, only on it being applied to the trimmed subject.
-/

namespace StringAnalyzer

/-- Python whitespace (the character class used by `str.strip()`, `str.split()`
and the regex class `\s`): ASCII whitespace plus the Unicode space characters. -/
def isPySpace (c : Char) : Bool :=
  c = ' ' || c = '\t' || c = '\n' || c = '\r' || c = '\x0b' || c = '\x0c' ||
  ('\x1c' ≤ c && c ≤ '\x1f') || c = '\x85' || c = '\xa0' || c = ' ' ||
  (' ' ≤ c && c ≤ ' ') || c = ' ' || c = ' ' ||
  c = ' ' || c = ' ' || c = '　'

/-- Python `str.lower()` (ASCII case mapping, sufficient for every character
class the analyzers and translators inspect). -/
def lowerL (l : List Char) : List Char := l.map Char.toLower

/-- Python `text.strip()`: remove leading and trailing whitespace. -/
def pyStrip (l : List Char) : List Char :=
  ((l.dropWhile isPySpace).reverse.dropWhile isPySpace).reverse

/-- The palindrome key: `re.sub(r'[^a-zA-Z0-9]', '', cleaned_text.lower())`. -/
def palinKey (l : List Char) : List Char :=
  (lowerL l).filter Char.isAlphanum

/-- State step for counting maximal non-whitespace runs
(`len(cleaned_text.split())`): the state is (inside-a-word?, words seen). -/
def wordCountStep : Bool × Nat → Char → Bool × Nat
  | (inWord, n), c =>
    if isPySpace c then (false, n)
    else if inWord then (true, n) else (true, n + 1)

/-- Python `len(text.split())`: the number of maximal non-whitespace runs. -/
def pyWordCount (l : List Char) : Nat :=
  (l.foldl wordCountStep (false, 0)).2

/-- One step of building the character-frequency dict:
`map[char] = map.get(char, 0) + 1` (Python dicts update an existing key in
place and append a fresh key at the end). -/
def incKey (c : Char) (m : List (Char × Nat)) : List (Char × Nat) :=
  if m.any (fun p => p.1 == c) then
    m.map (fun p => if p.1 == c then (p.1, p.2 + 1) else p)
  else m ++ [(c, 1)]

/-- The character-frequency map, built by a single left-to-right pass. -/
def charFrequency (l : List Char) : List (Char × Nat) :=
  l.foldl (fun m c => incKey c m) []

/-- Python substring containment `needle in hay`. -/
def containsSub (hay needle : List Char) : Bool :=
  hay.tails.any (fun t => needle.isPrefixOf t)

/-- The derived properties of one analyzed string (`character_frequency_map`
keeps the Python dict as an insertion-ordered association list). -/
structure StringProperties where
  length : Nat
  is_palindrome : Bool
  unique_characters : Nat
  word_count : Nat
  sha256_hash : String
  character_frequency_map : List (Char × Nat)
deriving DecidableEq, Repr

/-- One stored record (`StringAnalysis` dataclass / the stored dict):
`created_at` is the timestamp passed in by the caller. -/
structure StringAnalysis where
  id : String
  value : String
  properties : StringProperties
  created_at : Nat
deriving DecidableEq, Repr

/-- The structured filter set: absent field = no constraint.  Lengths are
Python ints (`shorter than 0` derives `max_length = -1`), hence `Int`. -/
structure Filters where
  is_palindrome : Option Bool
  min_length : Option Int
  max_length : Option Int
  word_count : Option Int
  contains_character : Option String
deriving DecidableEq, Repr

/-- The empty filter dict: no field present. -/
def emptyFilters : Filters := ⟨none, none, none, none, none⟩

/-- `'is_palindrome' in filters and props['is_palindrome'] != ...` negated:
the palindrome constraint is satisfied. -/
def palinOk (a : StringAnalysis) (f : Filters) : Bool :=
  match f.is_palindrome with
  | none => true
  | some b => a.properties.is_palindrome == b

/-- The `min_length` constraint is satisfied (`props['length'] < min` fails). -/
def minLenOk (a : StringAnalysis) (f : Filters) : Bool :=
  match f.min_length with
  | none => true
  | some n => !(decide ((a.properties.length : Int) < n))

/-- The `max_length` constraint is satisfied (`props['length'] > max` fails). -/
def maxLenOk (a : StringAnalysis) (f : Filters) : Bool :=
  match f.max_length with
  | none => true
  | some n => !(decide ((a.properties.length : Int) > n))

/-- The `word_count` constraint is satisfied (exact equality). -/
def wordCtOk (a : StringAnalysis) (f : Filters) : Bool :=
  match f.word_count with
  | none => true
  | some n => decide ((a.properties.word_count : Int) = n)

/-- The translator's error taxonomy (`ValueError` kinds / HTTP 400 vs 422). -/
inductive TranslateError
  | UnparsableQuery
  | ConflictingFilters
deriving DecidableEq, Repr

/-- `min_length > max_length` when both are present. -/
def hasConflict (f : Filters) : Bool :=
  match f.min_length, f.max_length with
  | some a, some b => decide (a > b)
  | _, _ => false

/-! Regex pattern primitives (Python `re.search` semantics for the concrete
patterns the translators use). -/

/-- Match a literal at the current position, returning the rest. -/
def matchLit : List Char → List Char → Option (List Char)
  | [], l => some l
  | _ :: _, [] => none
  | p :: ps, c :: cs => if p = c then matchLit ps cs else none

/-- `\s+` (greedy; deterministic here since every following token starts with a
non-whitespace character). -/
def matchSpaces1 (l : List Char) : Option (List Char) :=
  match l with
  | c :: cs => if isPySpace c then some (cs.dropWhile isPySpace) else none
  | [] => none

/-- Numeric value of a digit run (`int(...)` on the captured group). -/
def natOfDigits (ds : List Char) : Nat :=
  ds.foldl (fun n c => n * 10 + (c.toNat - 48)) 0

/-- `(\d+)` (greedy; deterministic since no following token is a digit). -/
def matchDigits1 (l : List Char) : Option (Nat × List Char) :=
  let ds := l.takeWhile Char.isDigit
  if ds.isEmpty then none else some (natOfDigits ds, l.dropWhile Char.isDigit)

/-- `re.search`: try the pattern at every position, leftmost match wins. -/
def searchFirst {α : Type} (m : List Char → Option α) : List Char → Option α
  | [] => m []
  | c :: cs =>
    match m (c :: cs) with
    | some a => some a
    | none => searchFirst m cs

namespace Services

/-- `longer\s+than\s+(\d+)` at one position. -/
def longerAt (l : List Char) : Option Nat :=
  (matchLit "longer".data l).bind fun r1 =>
  (matchSpaces1 r1).bind fun r2 =>
  (matchLit "than".data r2).bind fun r3 =>
  (matchSpaces1 r3).bind fun r4 =>
  (matchDigits1 r4).map Prod.fst

/-- `shorter\s+than\s+(\d+)` at one position. -/
def shorterAt (l : List Char) : Option Nat :=
  (matchLit "shorter".data l).bind fun r1 =>
  (matchSpaces1 r1).bind fun r2 =>
  (matchLit "than".data r2).bind fun r3 =>
  (matchSpaces1 r3).bind fun r4 =>
  (matchDigits1 r4).map Prod.fst

/-- `length\s+(\d+)|(\d+)\s+characters` at one position (branch order as in the
regex alternation; the value is `group(1) or group(2)`). -/
def exactAt (l : List Char) : Option Nat :=
  match (matchLit "length".data l).bind
      (fun r => (matchSpaces1 r).bind (fun r2 => (matchDigits1 r2).map Prod.fst)) with
  | some n => some n
  | none =>
    (matchDigits1 l).bind fun p =>
    (matchSpaces1 p.2).bind fun r2 =>
    (matchLit "characters".data r2).map fun _ => p.1

/-- `single\s+word|one\s+word|word\s+count\s*[=:]?\s*1` at one position. -/
def wcAt (l : List Char) : Option Unit :=
  match (matchLit "single".data l).bind (fun r => (matchSpaces1 r).bind (matchLit "word".data)) with
  | some _ => some ()
  | none =>
  match (matchLit "one".data l).bind (fun r => (matchSpaces1 r).bind (matchLit "word".data)) with
  | some _ => some ()
  | none =>
    (matchLit "word".data l).bind fun r =>
    (matchSpaces1 r).bind fun r2 =>
    (matchLit "count".data r2).bind fun r3 =>
    let r4 := r3.dropWhile isPySpace
    let r5 := match r4 with
      | c :: cs => if c = '=' || c = ':' then cs else r4
      | [] => r4
    let r6 := r5.dropWhile isPySpace
    match r6 with
    | '1' :: _ => some ()
    | _ => none

/-- `([a-zA-Z])`: a single ASCII letter at the current position. -/
def matchAlpha (l : List Char) : Option Char :=
  match l with
  | c :: _ => if c.isAlpha then some c else none
  | [] => none

/-- `(?:letter\s+)?([a-zA-Z])` with regex backtracking: if the optional group
matches but no letter follows, retry without it. -/
def letterOpt (l : List Char) : Option Char :=
  match (matchLit "letter".data l).bind matchSpaces1 with
  | some r =>
    match matchAlpha r with
    | some c => some c
    | none => matchAlpha l
  | none => matchAlpha l

/-- `(?:the\s+)?(?:letter\s+)?([a-zA-Z])` with backtracking. -/
def theOpt (l : List Char) : Option Char :=
  match (matchLit "the".data l).bind matchSpaces1 with
  | some r =>
    match letterOpt r with
    | some c => some c
    | none => letterOpt l
  | none => letterOpt l

/-- The tail of the containment pattern after a chosen `(?:s|ing)?` suffix. -/
def afterContainSuffix (sfx : List Char) (l : List Char) : Option Char :=
  (matchLit sfx l).bind fun r => (matchSpaces1 r).bind theOpt

/-- `contain(?:s|ing)?\s+(?:the\s+)?(?:letter\s+)?([a-zA-Z])` at one position
(the greedy optional tries `s`, then `ing`, then nothing). -/
def charAt (l : List Char) : Option Char :=
  (matchLit "contain".data l).bind fun r =>
    match afterContainSuffix "s".data r with
    | some c => some c
    | none =>
      match afterContainSuffix "ing".data r with
      | some c => some c
      | none => afterContainSuffix [] r

/-- Rule 1: `"palindromic" in query_lower or "palindrome" in query_lower`. -/
def stepPalindrome (q : List Char) (f : Filters) : Filters :=
  if containsSub q "palindromic".data || containsSub q "palindrome".data then
    { f with is_palindrome := some true }
  else f

/-- Rule 2: the single-word indicator sets `word_count = 1`. -/
def stepWordCount (q : List Char) (f : Filters) : Filters :=
  if (searchFirst wcAt q).isSome then { f with word_count := some 1 } else f

/-- Rule 3: `longer than N` sets `min_length = N + 1`. -/
def stepLonger (q : List Char) (f : Filters) : Filters :=
  match searchFirst longerAt q with
  | some n => { f with min_length := some ((n : Int) + 1) }
  | none => f

/-- Rule 4: `shorter than N` sets `max_length = N - 1`. -/
def stepShorter (q : List Char) (f : Filters) : Filters :=
  match searchFirst shorterAt q with
  | some n => { f with max_length := some ((n : Int) - 1) }
  | none => f

/-- Rule 5: `length N` / `N characters` sets both bounds to `N`. -/
def stepExact (q : List Char) (f : Filters) : Filters :=
  match searchFirst exactAt q with
  | some n => { f with min_length := some (n : Int), max_length := some (n : Int) }
  | none => f

/-- Rule 6: the containment pattern sets `contains_character` (lower-cased). -/
def stepChar (q : List Char) (f : Filters) : Filters :=
  match searchFirst charAt q with
  | some c => { f with contains_character := some (String.mk [c.toLower]) }
  | none => f

/-- Rule 7: `vowel`, when `contains_character` is not already set, defaults it
to `"a"`. -/
def stepVowel (q : List Char) (f : Filters) : Filters :=
  if containsSub q "vowel".data && f.contains_character.isNone then
    { f with contains_character := some "a" }
  else f

/-- The `parsed_filters` dict assembled by
`StringAnalyzerService.filter_by_natural_language` (rules in source order). -/
def parsedFilters (query : String) : Filters :=
  stepVowel (lowerL query.data) (stepChar (lowerL query.data) (stepExact (lowerL query.data)
    (stepShorter (lowerL query.data) (stepLonger (lowerL query.data)
    (stepWordCount (lowerL query.data) (stepPalindrome (lowerL query.data) emptyFilters))))))

/-- The translation part of `filter_by_natural_language`: empty parse fails
with `UnparsableQuery`, a derived `min_length > max_length` fails with
`ConflictingFilters`, otherwise the assembled filter is returned. -/
def translateQuery (query : String) : Except TranslateError Filters :=
  let pf := parsedFilters query
  if pf = emptyFilters then .error .UnparsableQuery
  else if hasConflict pf then .error .ConflictingFilters
  else .ok pf

/-- `StringAnalyzerService.analyze_string` (`sha256` is the digest function,
applied to the trimmed subject). -/
def analyze_string (sha256 : List Char → String) (text : String) : StringProperties :=
  let cleaned_text := pyStrip text.data
  let cleaned_for_palindrome := palinKey cleaned_text
  { length := cleaned_text.length
    is_palindrome :=
      if cleaned_for_palindrome.isEmpty then true
      else cleaned_for_palindrome == cleaned_for_palindrome.reverse
    unique_characters := cleaned_text.dedup.length
    word_count := pyWordCount cleaned_text
    sha256_hash := sha256 cleaned_text
    character_frequency_map := charFrequency cleaned_text }

/-- `contains_character` constraint of `_matches_filters`:
`if char not in analysis.value: return False` (case-sensitive). -/
def containsOk (a : StringAnalysis) (f : Filters) : Bool :=
  match f.contains_character with
  | none => true
  | some ch => containsSub a.value.data ch.data

/-- `StringAnalyzerService._matches_filters`: the conjunction of the five
early-return checks. -/
def matches_filters (a : StringAnalysis) (f : Filters) : Bool :=
  palinOk a f && minLenOk a f && maxLenOk a f && wordCtOk a f && containsOk a f

/-- Python dict assignment `d[k] = v`: replace in place or append. -/
def dictInsert (k : String) (v : StringAnalysis) (d : List (String × StringAnalysis)) :
    List (String × StringAnalysis) :=
  if d.any (fun p => p.1 == k) then
    d.map (fun p => if p.1 == k then (k, v) else p)
  else d ++ [(k, v)]

/-- Python `d.get(k)`. -/
def dictGet (d : List (String × StringAnalysis)) (k : String) : Option StringAnalysis :=
  (d.find? (fun p => p.1 == k)).map Prod.snd

/-- `InMemoryStringStorage`: the two dicts. -/
structure InMemoryStringStorage where
  by_hash : List (String × StringAnalysis)
  by_value : List (String × StringAnalysis)
deriving DecidableEq, Repr

/-- A fresh storage. -/
def emptyStorage : InMemoryStringStorage := ⟨[], []⟩

/-- `InMemoryStringStorage.store`. -/
def storePut (st : InMemoryStringStorage) (a : StringAnalysis) : InMemoryStringStorage :=
  { by_hash := dictInsert a.id a st.by_hash
    by_value := dictInsert a.value a st.by_value }

/-- `InMemoryStringStorage.get_by_value`. -/
def get_by_value (st : InMemoryStringStorage) (v : String) : Option StringAnalysis :=
  dictGet st.by_value v

/-- `InMemoryStringStorage.get_all`. -/
def get_all (st : InMemoryStringStorage) : List StringAnalysis :=
  st.by_value.map Prod.snd

/-- The engine's error kinds surfaced by the service layer. -/
inductive ServiceError
  | DuplicateValue
  | NotFound
deriving DecidableEq, Repr

/-- `StringAnalyzerService.analyze_and_store_string` with explicit state:
raising leaves the storage unchanged, success stores the new analysis.
`now` is the `datetime.utcnow()` timestamp. -/
def analyze_and_store_string (sha256 : List Char → String) (now : Nat)
    (st : InMemoryStringStorage) (text : String) :
    Except ServiceError StringAnalysis × InMemoryStringStorage :=
  match get_by_value st text with
  | some _ => (.error .DuplicateValue, st)
  | none =>
    let properties := analyze_string sha256 text
    let analysis : StringAnalysis :=
      { id := properties.sha256_hash
        value := text
        properties := properties
        created_at := now }
    (.ok analysis, storePut st analysis)

/-- Records of `get_all` whose `value` equals `v`. -/
def countValue (st : InMemoryStringStorage) (v : String) : Nat :=
  ((get_all st).filter (fun a => a.value == v)).length

/-- The storage states reachable through the service API: `by_value` keys are
distinct and each entry is keyed by its record's `value`. -/
def WFStorage (st : InMemoryStringStorage) : Prop :=
  (st.by_value.map Prod.fst).Nodup ∧ ∀ p ∈ st.by_value, p.2.value = p.1

instance : DecidablePred WFStorage := fun st => by
  unfold WFStorage; infer_instance

end Services

namespace AppMain

/-- `analyze_string` of `src/app/main.py`: identical to the service variant
except that an empty palindrome key yields `False`
(`... if cleaned_for_palindrome else False`). -/
def analyze_string (sha256 : List Char → String) (text : String) : StringProperties :=
  let cleaned_text := pyStrip text.data
  let cleaned_for_palindrome := palinKey cleaned_text
  { length := cleaned_text.length
    is_palindrome :=
      if cleaned_for_palindrome.isEmpty then false
      else cleaned_for_palindrome == cleaned_for_palindrome.reverse
    unique_characters := cleaned_text.dedup.length
    word_count := pyWordCount cleaned_text
    sha256_hash := sha256 cleaned_text
    character_frequency_map := charFrequency cleaned_text }

end AppMain

namespace RootMain

/-- `analyze_string` of `src/main.py`: the palindrome check is unguarded
(`cleaned_for_palindrome == cleaned_for_palindrome[::-1]`). -/
def analyze_string (sha256 : List Char → String) (text : String) : StringProperties :=
  let cleaned_text := pyStrip text.data
  let cleaned_for_palindrome := palinKey cleaned_text
  { length := cleaned_text.length
    is_palindrome := cleaned_for_palindrome == cleaned_for_palindrome.reverse
    unique_characters := cleaned_text.dedup.length
    word_count := pyWordCount cleaned_text
    sha256_hash := sha256 cleaned_text
    character_frequency_map := charFrequency cleaned_text }

/-- `contains_character` check of the `get_all_strings` filter loop in
`src/main.py`: skipped when falsy (absent or empty), otherwise
`contains_character.lower() not in item["value"].lower()` (case-insensitive). -/
def containsOkCI (a : StringAnalysis) (f : Filters) : Bool :=
  match f.contains_character with
  | none => true
  | some s => if s.data.isEmpty then true
    else containsSub (lowerL a.value.data) (lowerL s.data)

/-- The record-matching predicate of the `get_all_strings` filter loop in
`src/main.py`. -/
def matches_query_params (a : StringAnalysis) (f : Filters) : Bool :=
  palinOk a f && minLenOk a f && maxLenOk a f && wordCtOk a f && containsOkCI a f

/-- `longer than (\d+)` (literal single spaces) at one position. -/
def longerRMAt (l : List Char) : Option Nat :=
  (matchLit "longer than ".data l).bind fun r => (matchDigits1 r).map Prod.fst

/-- `shorter than (\d+)` at one position. -/
def shorterRMAt (l : List Char) : Option Nat :=
  (matchLit "shorter than ".data l).bind fun r => (matchDigits1 r).map Prod.fst

/-- `\w`: a word character. -/
def isWordChar (c : Char) : Bool := c.isAlphanum || c = '_'

/-- `letter (\w)` at one position. -/
def letterRMAt (l : List Char) : Option Char :=
  (matchLit "letter ".data l).bind fun r =>
    match r with
    | c :: _ => if isWordChar c then some c else none
    | [] => none

/-- The `parsed_filters` dict assembled by `filter_by_natural_language` in
`src/main.py` (substring guards, then regexes with literal spaces). -/
def parsedFilters (query : String) : Filters :=
  let q := lowerL query.data
  let f0 := emptyFilters
  let f1 := if containsSub q "palindrome".data then { f0 with is_palindrome := some true } else f0
  let f2 := if containsSub q "single word".data || containsSub q "one word".data then
      { f1 with word_count := some 1 } else f1
  let f3 := if containsSub q "longer than".data then
      match searchFirst longerRMAt q with
      | some n => { f2 with min_length := some ((n : Int) + 1) }
      | none => f2
    else f2
  let f4 := if containsSub q "shorter than".data then
      match searchFirst shorterRMAt q with
      | some n => { f3 with max_length := some ((n : Int) - 1) }
      | none => f3
    else f3
  let f5 := if containsSub q "contain".data then
      match searchFirst letterRMAt q with
      | some c => { f4 with contains_character := some (String.mk [c]) }
      | none => f4
    else f4
  let f6 := if containsSub q "vowel".data && f5.contains_character.isNone then
      { f5 with contains_character := some "a" }
    else f5
  f6

/-- The translation part of `filter_by_natural_language` in `src/main.py`. -/
def translateQuery (query : String) : Except TranslateError Filters :=
  let pf := parsedFilters query
  if pf = emptyFilters then .error .UnparsableQuery
  else if hasConflict pf then .error .ConflictingFilters
  else .ok pf

end RootMain

/-- A single added filter constraint (one present field with its value). -/
inductive FilterConstraint
  | palin (b : Bool)
  | minLen (n : Int)
  | maxLen (n : Int)
  | wordCt (n : Int)
  | containsCh (s : String)
deriving DecidableEq, Repr

/-- Add one constraint to a filter set (make one field present). -/
def setConstraint (f : Filters) : FilterConstraint → Filters
  | .palin b => { f with is_palindrome := some b }
  | .minLen n => { f with min_length := some n }
  | .maxLen n => { f with max_length := some n }
  | .wordCt n => { f with word_count := some n }
  | .containsCh s => { f with contains_character := some s }

/-- The constraint's field is absent from the filter set. -/
def constraintAbsent (f : Filters) : FilterConstraint → Bool
  | .palin _ => f.is_palindrome.isNone
  | .minLen _ => f.min_length.isNone
  | .maxLen _ => f.max_length.isNone
  | .wordCt _ => f.word_count.isNone
  | .containsCh _ => f.contains_character.isNone

/-- A placeholder digest function for concrete evaluations (the development is
parametric in the digest). -/
def hash0 : List Char → String := fun _ => ""

/-- The right-hand half of `pyStrip`: remove trailing whitespace. -/
def rstripL (l : List Char) : List Char :=
  (l.reverse.dropWhile isPySpace).reverse

/-- The keys of a character-frequency map. -/
def keysOf (m : List (Char × Nat)) : List Char := m.map Prod.fst

/-- The total of all counts in a character-frequency map. -/
def sumCounts (m : List (Char × Nat)) : Nat := (m.map Prod.snd).sum

/-- A concrete stored record for the value `"A"`. -/
def recUpperA : StringAnalysis :=
  { id := ""
    value := "A"
    properties := Services.analyze_string hash0 "A"
    created_at := 0 }

/-- The record created by storing `"abc"` into an empty storage. -/
def recAbc : StringAnalysis :=
  { id := ""
    value := "abc"
    properties := Services.analyze_string hash0 "abc"
    created_at := 0 }

/-- The storage state after storing `"abc"` into an empty storage. -/
def stAbc : Services.InMemoryStringStorage :=
  Services.storePut Services.emptyStorage recAbc

end StringAnalyzer

namespace StringAnalyzer

/-! Helper lemmas about trimming. -/

theorem dropWhile_idem (p : Char → Bool) (l : List Char) :
    (l.dropWhile p).dropWhile p = l.dropWhile p := by
  induction l with
  | nil => rfl
  | cons c t ih =>
    by_cases hc : p c = true
    · simp [List.dropWhile_cons, hc, ih]
    · simp [List.dropWhile_cons, hc]

theorem dropWhile_head_false {p : Char → Bool} {l : List Char} {c : Char} {t : List Char}
    (h : l.dropWhile p = c :: t) : p c = false := by
  induction l with
  | nil => simp at h
  | cons a l ih =>
    rw [List.dropWhile_cons] at h
    by_cases ha : p a = true
    · rw [if_pos ha] at h; exact ih h
    · rw [if_neg ha] at h
      cases h
      exact Bool.eq_false_iff.mpr ha

theorem rstripL_cons_of_neg {c : Char} (hc : isPySpace c = false) (t : List Char) :
    rstripL (c :: t) = c :: rstripL t := by
  unfold rstripL
  rw [List.reverse_cons, List.dropWhile_append]
  by_cases h : (t.reverse.dropWhile isPySpace).isEmpty
  · rw [if_pos h]
    rw [List.isEmpty_iff] at h
    simp [h, List.dropWhile_cons, hc]
  · rw [if_neg h]
    simp

theorem rstripL_idem (l : List Char) : rstripL (rstripL l) = rstripL l := by
  unfold rstripL
  rw [List.reverse_reverse, dropWhile_idem]

theorem pyStrip_eq_rstrip (l : List Char) :
    pyStrip l = rstripL (l.dropWhile isPySpace) := rfl

theorem dropWhile_pyStrip (l : List Char) :
    (pyStrip l).dropWhile isPySpace = pyStrip l := by
  rw [pyStrip_eq_rstrip]
  cases h : l.dropWhile isPySpace with
  | nil => rfl
  | cons c t =>
    have hc : isPySpace c = false := dropWhile_head_false h
    rw [rstripL_cons_of_neg hc, List.dropWhile_cons_of_neg (by simp [hc])]

theorem pyStrip_idem (l : List Char) : pyStrip (pyStrip l) = pyStrip l := by
  rw [pyStrip_eq_rstrip (pyStrip l), dropWhile_pyStrip, pyStrip_eq_rstrip l, rstripL_idem]

/-! Helper lemmas about the frequency map. -/

theorem incKey_keys_mem_aux {c : Char} {m : List (Char × Nat)}
    (h : m.any (fun p => p.1 == c) = true) : c ∈ keysOf m := by
  rw [List.any_eq_true] at h
  obtain ⟨p, hp, hpc⟩ := h
  rw [beq_iff_eq] at hpc
  exact hpc ▸ List.mem_map_of_mem Prod.fst hp

theorem sum_map_bump (c : Char) :
    ∀ m : List (Char × Nat), (keysOf m).Nodup → m.any (fun p => p.1 == c) = true →
      sumCounts (m.map (fun p => if p.1 == c then (p.1, p.2 + 1) else p)) = sumCounts m + 1 := by
  intro m
  induction m with
  | nil => intro _ h; simp at h
  | cons p t ih =>
    intro hnd hany
    rw [show keysOf (p :: t) = p.1 :: keysOf t from rfl] at hnd
    obtain ⟨hhead, hndt⟩ := List.nodup_cons.mp hnd
    by_cases hp : p.1 = c
    · have hcnotin : c ∉ keysOf t := hp ▸ hhead
      have htid : t.map (fun q => if q.1 == c then (q.1, q.2 + 1) else q) = t := by
        have hq : ∀ q ∈ t, (if q.1 == c then (q.1, q.2 + 1) else q) = q := by
          intro q hq
          have hqc : (q.1 == c) = false := by
            rw [beq_eq_false_iff_ne]
            intro hqe
            exact hcnotin (hqe ▸ List.mem_map_of_mem Prod.fst hq)
          simp [hqc]
        calc t.map (fun q => if q.1 == c then (q.1, q.2 + 1) else q) = t.map id :=
              List.map_congr_left hq
          _ = t := List.map_id t
      rw [List.map_cons, htid]
      have hple : (p.1 == c) = true := beq_iff_eq.mpr hp
      simp only [hple, if_true]
      simp [sumCounts]
      omega
    · have hany' : t.any (fun q => q.1 == c) = true := by
        rcases List.any_eq_true.mp hany with ⟨q, hq, hqc⟩
        rcases List.mem_cons.mp hq with hq1 | hq2
        · exfalso; exact hp (by rw [hq1] at hqc; exact beq_iff_eq.mp hqc)
        · exact List.any_eq_true.mpr ⟨q, hq2, hqc⟩
      have hpc : (p.1 == c) = false := beq_eq_false_iff_ne.mpr hp
      rw [List.map_cons]
      simp only [hpc, if_false]
      have hrec := ih hndt hany'
      simp [sumCounts] at hrec ⊢
      omega

theorem incKey_spec (c : Char) (m : List (Char × Nat)) (hnd : (keysOf m).Nodup) :
    sumCounts (incKey c m) = sumCounts m + 1 ∧
    (keysOf (incKey c m)).Nodup ∧
    ∀ x, x ∈ keysOf (incKey c m) ↔ x ∈ keysOf m ∨ x = c := by
  by_cases hmem : m.any (fun p => p.1 == c) = true
  · have hkeys : keysOf (incKey c m) = keysOf m := by
      simp only [incKey, if_pos hmem, keysOf, List.map_map]
      apply List.map_congr_left
      intro p _
      by_cases hp : p.1 = c <;> simp [hp]
    refine ⟨?_, ?_, ?_⟩
    · simpa only [incKey, if_pos hmem] using sum_map_bump c m hnd hmem
    · rw [hkeys]; exact hnd
    · intro x
      rw [hkeys]
      constructor
      · exact Or.inl
      · rintro (hx | rfl)
        · exact hx
        · exact incKey_keys_mem_aux hmem
  · have hmem' : m.any (fun p => p.1 == c) = false := by
      cases h : m.any (fun p => p.1 == c)
      · rfl
      · exact absurd h hmem
    have hne : incKey c m = m ++ [(c, 1)] := by simp [incKey, hmem']
    have hcnotin : c ∉ keysOf m := by
      intro hc
      rcases List.mem_map.mp hc with ⟨p, hp, hpc⟩
      have := List.any_eq_false.mp hmem' p hp
      exact this (beq_iff_eq.mpr hpc)
    refine ⟨?_, ?_, ?_⟩
    · simp [hne, sumCounts]
    · simp only [hne, keysOf, List.map_append]
      exact List.nodup_append.mpr ⟨hnd, by simp, by simpa [keysOf] using hcnotin⟩
    · intro x
      simp [hne, keysOf]

theorem charFrequency_go (l : List Char) :
    ∀ m : List (Char × Nat), (keysOf m).Nodup →
      sumCounts (l.foldl (fun acc c => incKey c acc) m) = sumCounts m + l.length ∧
      (keysOf (l.foldl (fun acc c => incKey c acc) m)).Nodup ∧
      ∀ x, x ∈ keysOf (l.foldl (fun acc c => incKey c acc) m) ↔ x ∈ keysOf m ∨ x ∈ l := by
  induction l with
  | nil => intro m hnd; simp [hnd]
  | cons c t ih =>
    intro m hnd
    obtain ⟨hsum, hnd', hmem⟩ := incKey_spec c m hnd
    obtain ⟨ihsum, ihnd, ihmem⟩ := ih (incKey c m) hnd'
    refine ⟨?_, ?_, ?_⟩
    · simp only [List.foldl_cons]
      rw [ihsum, hsum]
      simp [Nat.add_assoc, Nat.add_comm]
    · simpa only [List.foldl_cons] using ihnd
    · intro x
      simp only [List.foldl_cons]
      rw [ihmem x, hmem x, List.mem_cons]
      tauto

theorem charFrequency_spec (l : List Char) :
    sumCounts (charFrequency l) = l.length ∧
    (keysOf (charFrequency l)).Nodup ∧
    ∀ x, x ∈ keysOf (charFrequency l) ↔ x ∈ l := by
  obtain ⟨h1, h2, h3⟩ := charFrequency_go l [] (by simp [keysOf])
  refine ⟨by simpa [charFrequency, sumCounts] using h1, by simpa [charFrequency] using h2, ?_⟩
  intro x
  have := h3 x
  simpa [charFrequency, keysOf] using this

/-! Helper lemmas about the storage dicts. -/

theorem dictGet_find?_none {d : List (String × StringAnalysis)} {k : String}
    (h : Services.dictGet d k = none) : d.find? (fun p => p.1 == k) = none := by
  unfold Services.dictGet at h
  cases hf : d.find? (fun p => p.1 == k) with
  | none => rfl
  | some p => rw [hf] at h; simp at h

theorem dictInsert_of_get_none {d : List (String × StringAnalysis)} {k : String}
    (v : StringAnalysis) (h : Services.dictGet d k = none) :
    Services.dictInsert k v d = d ++ [(k, v)] := by
  have hf := dictGet_find?_none h
  have hany : d.any (fun p => p.1 == k) = false := by
    rw [List.any_eq_false]
    intro p hp
    exact List.find?_eq_none.mp hf p hp
  simp [Services.dictInsert, hany]

theorem dictGet_dictInsert_self {d : List (String × StringAnalysis)} {k : String}
    (v : StringAnalysis) (h : Services.dictGet d k = none) :
    Services.dictGet (Services.dictInsert k v d) k = some v := by
  rw [dictInsert_of_get_none v h]
  have hf := dictGet_find?_none h
  simp [Services.dictGet, List.find?_append, hf]

/-! Helper lemmas about the translator's rule pipeline. -/

theorem stepChar_min_length (q : List Char) (f : Filters) :
    (Services.stepChar q f).min_length = f.min_length := by
  unfold Services.stepChar
  cases searchFirst Services.charAt q <;> rfl

theorem stepChar_max_length (q : List Char) (f : Filters) :
    (Services.stepChar q f).max_length = f.max_length := by
  unfold Services.stepChar
  cases searchFirst Services.charAt q <;> rfl

theorem stepVowel_min_length (q : List Char) (f : Filters) :
    (Services.stepVowel q f).min_length = f.min_length := by
  unfold Services.stepVowel
  by_cases h : (containsSub q "vowel".data && f.contains_character.isNone) = true
  · rw [if_pos h]
  · rw [if_neg h]

theorem stepVowel_max_length (q : List Char) (f : Filters) :
    (Services.stepVowel q f).max_length = f.max_length := by
  unfold Services.stepVowel
  by_cases h : (containsSub q "vowel".data && f.contains_character.isNone) = true
  · rw [if_pos h]
  · rw [if_neg h]

theorem stepShorter_min_length (q : List Char) (f : Filters) :
    (Services.stepShorter q f).min_length = f.min_length := by
  unfold Services.stepShorter
  cases searchFirst Services.shorterAt q <;> rfl

theorem stepExact_some_min (q : List Char) (f : Filters) {n : Nat}
    (h : searchFirst Services.exactAt q = some n) :
    (Services.stepExact q f).min_length = some (n : Int) := by
  unfold Services.stepExact
  rw [h]

theorem stepExact_some_max (q : List Char) (f : Filters) {n : Nat}
    (h : searchFirst Services.exactAt q = some n) :
    (Services.stepExact q f).max_length = some (n : Int) := by
  unfold Services.stepExact
  rw [h]

theorem stepExact_none (q : List Char) (f : Filters)
    (h : searchFirst Services.exactAt q = none) :
    Services.stepExact q f = f := by
  unfold Services.stepExact
  rw [h]

theorem stepLonger_some_min (q : List Char) (f : Filters) {n : Nat}
    (h : searchFirst Services.longerAt q = some n) :
    (Services.stepLonger q f).min_length = some ((n : Int) + 1) := by
  unfold Services.stepLonger
  rw [h]

theorem stepShorter_some_max (q : List Char) (f : Filters) {n : Nat}
    (h : searchFirst Services.shorterAt q = some n) :
    (Services.stepShorter q f).max_length = some ((n : Int) - 1) := by
  unfold Services.stepShorter
  rw [h]

/-! The claims. -/

/-- C1 (amended): the two filter matchers disagree on case.  For a filter whose
only present field is `contains_character` with the single character `c`, the
`src/main.py` matcher (`get_all_strings`) is case-insensitive — it matches `r`
iff `c` lower-cased occurs in `r.value` lower-cased — while the
`src/app/services.py` matcher (`_matches_filters`) is case-sensitive — it
matches `r` iff `c` occurs in `r.value` exactly. -/
theorem C1_contains_character_policy :
    (∀ (a : StringAnalysis) (c : Char),
      RootMain.matches_query_params a ⟨none, none, none, none, some (String.mk [c])⟩ =
        containsSub (lowerL a.value.data) [c.toLower]) ∧
    (∀ (a : StringAnalysis) (c : Char),
      Services.matches_filters a ⟨none, none, none, none, some (String.mk [c])⟩ =
        containsSub a.value.data [c]) :=
  ⟨fun _ _ => rfl, fun _ _ => rfl⟩

/-- C1 counterexample: for the stored record with value `"A"` and the filter
`contains_character = "a"`, `"a"` lower-cased occurs in `"A"` lower-cased, yet
the `services.py` filter matcher rejects the record — so the claim that the
matcher's containment constraint is case-insensitive containment is false. -/
theorem C1_counterexample :
    containsSub (lowerL recUpperA.value.data) (lowerL ("a".data)) = true ∧
    Services.matches_filters recUpperA ⟨none, none, none, none, some "a"⟩ = false := by
  constructor
  · decide
  · decide

/-- C2 (amended): on any input whose palindrome key is empty,
`src/app/services.py` and `src/main.py` return `is_palindrome = true`, but
`src/app/main.py` returns `is_palindrome = false`. -/
theorem C2_empty_palindrome_key (sha : List Char → String) (s : String)
    (h : palinKey (pyStrip s.data) = []) :
    (Services.analyze_string sha s).is_palindrome = true ∧
    (RootMain.analyze_string sha s).is_palindrome = true ∧
    (AppMain.analyze_string sha s).is_palindrome = false := by
  refine ⟨?_, ?_, ?_⟩ <;>
    simp [Services.analyze_string, RootMain.analyze_string, AppMain.analyze_string, h]

/-- C2 witness: the amended statement instantiated at `"!!!"`. -/
theorem C2_witness :
    (Services.analyze_string hash0 "!!!").is_palindrome = true ∧
    (RootMain.analyze_string hash0 "!!!").is_palindrome = true ∧
    (AppMain.analyze_string hash0 "!!!").is_palindrome = false :=
  C2_empty_palindrome_key hash0 "!!!" (by decide)

/-- C2 counterexample: the input `"!!!"` has an empty palindrome key, yet the
`src/app/main.py` analyzer returns `is_palindrome = false`, refuting the claim
that analyze returns `is_palindrome = true` for such inputs. -/
theorem C2_counterexample :
    palinKey (pyStrip ("!!!".data)) = [] ∧
    (AppMain.analyze_string hash0 "!!!").is_palindrome = false := by
  constructor
  · decide
  · decide

/-- C3 (amended): a successful create stores the submitted string as-is — the
record's `value` field equals the submitted string without any trimming, and
that untrimmed value is the key under which the record is found. -/
theorem C3_value_stored_untrimmed (sha : List Char → String) (now : Nat)
    (st : Services.InMemoryStringStorage) (text : String)
    (r : StringAnalysis) (st' : Services.InMemoryStringStorage)
    (h : Services.analyze_and_store_string sha now st text = (.ok r, st')) :
    r.value = text ∧ Services.get_by_value st' text = some r := by
  unfold Services.analyze_and_store_string at h
  cases hg : Services.get_by_value st text with
  | some a => rw [hg] at h; simp at h
  | none =>
    rw [hg] at h
    simp only [Prod.mk.injEq, Except.ok.injEq] at h
    obtain ⟨h1, h2⟩ := h
    subst h1
    subst h2
    refine ⟨rfl, ?_⟩
    exact dictGet_dictInsert_self _ hg

/-- C3 witness: the amended statement instantiated for storing `"abc"` into an
empty storage. -/
theorem C3_witness :
    recAbc.value = "abc" ∧ Services.get_by_value stAbc "abc" = some recAbc :=
  C3_value_stored_untrimmed hash0 0 Services.emptyStorage "abc" recAbc stAbc rfl

/-- C3 counterexample: creating `"  a  "` stores a record whose `value` is the
untrimmed `"  a  "`, which differs from the trimmed submitted string `"a"` —
refuting the claim that the stored `value` is the post-trim string. -/
theorem C3_counterexample :
    ((Services.analyze_and_store_string hash0 0 Services.emptyStorage "  a  ").1.map
        StringAnalysis.value) = Except.ok "  a  " ∧
    String.mk (pyStrip ("  a  ".data)) = "a" ∧
    ("  a  " : String) ≠ "a" := by
  refine ⟨rfl, ?_, ?_⟩
  · decide
  · decide

theorem countValue_insert (st : Services.InMemoryStringStorage) (a : StringAnalysis)
    (hwf2 : ∀ p ∈ st.by_value, p.2.value = p.1)
    (hg : Services.dictGet st.by_value a.value = none) :
    Services.countValue (Services.storePut st a) a.value = 1 := by
  unfold Services.countValue Services.get_all Services.storePut
  rw [dictInsert_of_get_none a hg, List.map_append, List.filter_append]
  have hnil : (st.by_value.map Prod.snd).filter (fun x => x.value == a.value) = [] := by
    rw [List.filter_eq_nil_iff]
    intro x hx
    rcases List.mem_map.mp hx with ⟨p, hp, hpx⟩
    have hkey : ¬(p.1 == a.value) = true := List.find?_eq_none.mp (dictGet_find?_none hg) p hp
    intro hxv
    exact hkey (beq_iff_eq.mpr (by rw [← hwf2 p hp, hpx]; exact beq_iff_eq.mp hxv))
  simp [hnil]

/-- C4: the translator fails with `UnparsableQuery` on `"gibberish"` (no rule
recognizes a field), fails with `ConflictingFilters` on
`"longer than 10 and shorter than 5"` (derived `min_length = 11 > 4 =
max_length`), and whenever at least one field is recognized and the derived
bounds do not conflict it returns the assembled filter set. -/
theorem C4_translate_error_contract :
    Services.translateQuery "gibberish" = .error .UnparsableQuery ∧
    Services.translateQuery "longer than 10 and shorter than 5" = .error .ConflictingFilters ∧
    ∀ q : String, Services.parsedFilters q ≠ emptyFilters →
      hasConflict (Services.parsedFilters q) = false →
      Services.translateQuery q = .ok (Services.parsedFilters q) := by
  refine ⟨rfl, rfl, ?_⟩
  intro q h1 h2
  unfold Services.translateQuery
  rw [if_neg h1, if_neg (by simp [h2])]

/-- C4 witness: the non-error branch instantiated at the query
`"palindromic"`. -/
theorem C4_witness :
    Services.translateQuery "palindromic" = .ok (Services.parsedFilters "palindromic") :=
  C4_translate_error_contract.2.2 "palindromic" (by decide) (by decide)

/-- C5: whenever the exact-length pattern `length N` / `N characters` is
recognized in the (lower-cased) query, the assembled filter set has
`min_length = N` and `max_length = N`, regardless of what the `longer than` /
`shorter than` rules set earlier in the pipeline. -/
theorem C5_exact_length_overrides (query : String) (n : Nat)
    (h : searchFirst Services.exactAt (lowerL query.data) = some n) :
    (Services.parsedFilters query).min_length = some (n : Int) ∧
    (Services.parsedFilters query).max_length = some (n : Int) := by
  unfold Services.parsedFilters
  constructor
  · rw [stepVowel_min_length, stepChar_min_length, stepExact_some_min _ _ h]
  · rw [stepVowel_max_length, stepChar_max_length, stepExact_some_max _ _ h]

/-- C5 witness: `"longer than 2 length 5"` first derives `min_length = 3`, then
the exact-length rule overrides both bounds to `5`. -/
theorem C5_witness :
    (Services.parsedFilters "longer than 2 length 5").min_length = some 5 ∧
    (Services.parsedFilters "longer than 2 length 5").max_length = some 5 :=
  C5_exact_length_overrides "longer than 2 length 5" 5 (by decide)

/-- C6: the `longer than N` rule assigns `min_length = N + 1` and the
`shorter than N` rule assigns `max_length = N - 1`; when no exact-length
pattern also fires, `min_length = N + 1` survives to the assembled filter set;
and concretely both translators map `"longer than 5"` to
`{min_length: 6}`. -/
theorem C6_longer_shorter_rules :
    (∀ (q : List Char) (f : Filters) (n : Nat), searchFirst Services.longerAt q = some n →
      (Services.stepLonger q f).min_length = some ((n : Int) + 1)) ∧
    (∀ (q : List Char) (f : Filters) (n : Nat), searchFirst Services.shorterAt q = some n →
      (Services.stepShorter q f).max_length = some ((n : Int) - 1)) ∧
    (∀ (query : String) (n : Nat),
      searchFirst Services.longerAt (lowerL query.data) = some n →
      searchFirst Services.exactAt (lowerL query.data) = none →
      (Services.parsedFilters query).min_length = some ((n : Int) + 1)) ∧
    Services.translateQuery "longer than 5" = .ok ⟨none, some 6, none, none, none⟩ ∧
    RootMain.translateQuery "longer than 5" = .ok ⟨none, some 6, none, none, none⟩ := by
  refine ⟨?_, ?_, ?_, rfl, rfl⟩
  · intro q f n h; exact stepLonger_some_min q f h
  · intro q f n h; exact stepShorter_some_max q f h
  · intro query n hl he
    unfold Services.parsedFilters
    rw [stepVowel_min_length, stepChar_min_length, stepExact_none _ _ he,
      stepShorter_min_length, stepLonger_some_min _ _ hl]

/-- C6 witness: the pipeline statement instantiated at
`"words longer than 7"`. -/
theorem C6_witness :
    (Services.parsedFilters "words longer than 7").min_length = some 8 :=
  C6_longer_shorter_rules.2.2.1 "words longer than 7" 7 (by decide) (by decide)

/-- C7: after a successful `analyze_and_store_string` for a value `v` on a
well-formed storage, a second call with the same `v` fails with
`DuplicateValue`, leaves the storage unchanged, and the storage contains
exactly one record whose value is `v`. -/
theorem C7_duplicate_create (sha : List Char → String) (now now2 : Nat)
    (st : Services.InMemoryStringStorage) (v : String) (r : StringAnalysis)
    (st' : Services.InMemoryStringStorage)
    (hwf : Services.WFStorage st)
    (h : Services.analyze_and_store_string sha now st v = (.ok r, st')) :
    Services.analyze_and_store_string sha now2 st' v = (.error .DuplicateValue, st') ∧
    Services.countValue st' v = 1 := by
  unfold Services.analyze_and_store_string at h
  cases hg : Services.get_by_value st v with
  | some a => rw [hg] at h; simp at h
  | none =>
    rw [hg] at h
    simp only [Prod.mk.injEq, Except.ok.injEq] at h
    obtain ⟨h1, h2⟩ := h
    have hget : Services.get_by_value st' v = some r := by
      rw [← h2, ← h1]
      exact dictGet_dictInsert_self _ hg
    constructor
    · unfold Services.analyze_and_store_string
      rw [hget]
    · rw [← h2]
      exact countValue_insert st _ hwf.2 hg

/-- C7 witness: storing `"abc"` twice starting from the empty storage. -/
theorem C7_witness :
    Services.analyze_and_store_string hash0 1 stAbc "abc" = (.error .DuplicateValue, stAbc) ∧
    Services.countValue stAbc "abc" = 1 :=
  C7_duplicate_create hash0 0 1 Services.emptyStorage "abc" recAbc stAbc (by decide) rfl

/-- C8: the empty filter set matches every record, and filtering is monotone —
adding one constraint on a previously-absent field can only narrow the set of
matching records: any record matching the extended filter matches the original
one. -/
theorem C8_identity_and_narrowing :
    (∀ a : StringAnalysis, Services.matches_filters a emptyFilters = true) ∧
    (∀ (a : StringAnalysis) (f : Filters) (c : FilterConstraint),
      constraintAbsent f c = true →
      Services.matches_filters a (setConstraint f c) = true →
      Services.matches_filters a f = true) := by
  constructor
  · intro a; rfl
  · intro a f c habs h
    simp only [Services.matches_filters, Bool.and_eq_true] at h ⊢
    obtain ⟨⟨⟨⟨hp, hm⟩, hM⟩, hw⟩, hc⟩ := h
    cases c with
    | palin b =>
      have hnone : f.is_palindrome = none :=
        Option.isNone_iff_eq_none.mp (by simpa [constraintAbsent] using habs)
      exact ⟨⟨⟨⟨by simp [palinOk, hnone], hm⟩, hM⟩, hw⟩, hc⟩
    | minLen n =>
      have hnone : f.min_length = none :=
        Option.isNone_iff_eq_none.mp (by simpa [constraintAbsent] using habs)
      exact ⟨⟨⟨⟨hp, by simp [minLenOk, hnone]⟩, hM⟩, hw⟩, hc⟩
    | maxLen n =>
      have hnone : f.max_length = none :=
        Option.isNone_iff_eq_none.mp (by simpa [constraintAbsent] using habs)
      exact ⟨⟨⟨⟨hp, hm⟩, by simp [maxLenOk, hnone]⟩, hw⟩, hc⟩
    | wordCt n =>
      have hnone : f.word_count = none :=
        Option.isNone_iff_eq_none.mp (by simpa [constraintAbsent] using habs)
      exact ⟨⟨⟨⟨hp, hm⟩, hM⟩, by simp [wordCtOk, hnone]⟩, hc⟩
    | containsCh s =>
      have hnone : f.contains_character = none :=
        Option.isNone_iff_eq_none.mp (by simpa [constraintAbsent] using habs)
      exact ⟨⟨⟨⟨hp, hm⟩, hM⟩, hw⟩, by simp [Services.containsOk, hnone]⟩

/-- C8 witness: the narrowing direction instantiated at the `"abc"` record
with the constraint `min_length = 1` added to the empty filter set. -/
theorem C8_witness : Services.matches_filters recAbc emptyFilters = true :=
  C8_identity_and_narrowing.2 recAbc emptyFilters (.minLen 1) (by decide) (by decide)

/-- C9: for every input, the properties computed by
`StringAnalyzerService.analyze_string` are mutually consistent — the counts in
`character_frequency_map` sum to `length`, and the number of distinct keys of
`character_frequency_map` equals `unique_characters`. -/
theorem C9_property_consistency (sha : List Char → String) (s : String) :
    sumCounts (Services.analyze_string sha s).character_frequency_map =
      (Services.analyze_string sha s).length ∧
    (keysOf (Services.analyze_string sha s).character_frequency_map).dedup.length =
      (Services.analyze_string sha s).unique_characters := by
  obtain ⟨h1, h2, h3⟩ := charFrequency_spec (pyStrip s.data)
  constructor
  · simpa [Services.analyze_string] using h1
  · have hperm : (keysOf (charFrequency (pyStrip s.data))).Perm ((pyStrip s.data).dedup) := by
      rw [List.perm_ext_iff_of_nodup h2 (List.nodup_dedup _)]
      intro x
      rw [List.mem_dedup]
      exact h3 x
    have hdedup : (keysOf (charFrequency (pyStrip s.data))).dedup =
        keysOf (charFrequency (pyStrip s.data)) := List.dedup_eq_self.mpr h2
    simp only [Services.analyze_string]
    rw [hdedup]
    exact hperm.length_eq

/-- C10: analysis is invariant under pre-trimming the input — analyzing the
trimmed string yields exactly the same property set (every field) as analyzing
the original, for both the `services.py` and the `src/main.py` analyzer. -/
theorem C10_analyze_trim_invariant (sha : List Char → String) (s : String) :
    Services.analyze_string sha (String.mk (pyStrip s.data)) = Services.analyze_string sha s ∧
    RootMain.analyze_string sha (String.mk (pyStrip s.data)) = RootMain.analyze_string sha s := by
  constructor <;>
    simp [Services.analyze_string, RootMain.analyze_string, pyStrip_idem]

end StringAnalyzer
